import Mathlib

/-!
Shallow embedding of `src/backend/main.py` (Task Overlay API): an in-memory
model of the sqlite store (viewers, backlog, preferences tables) and of the
data-access operations.  Timestamps (`datetime.now()` / `CURRENT_TIMESTAMP`)
are passed explicitly as a `now : Nat` parameter; the JSON-serialized `info`
column is modelled as an association list of string pairs (Python dicts keep
insertion order, and `json.dumps`/`json.loads` round-trip string dicts
faithfully); HTTP 404 errors (`HTTPException(status_code=404)`) are modelled
with `Except ApiError`.
-/

namespace TaskOverlay

/-- Pydantic model `ViewerInfo`: username, info dict, task_count. -/
structure ViewerInfo where
  username : String
  info : List (String × String)
  task_count : Int
deriving DecidableEq

/-- Pydantic model `BacklogItem`: the add-backlog request body. -/
structure BacklogItem where
  username : String
  description : String
  priority : Int
  completed : Bool
deriving DecidableEq

/-- A row of the `viewers` table. -/
structure ViewerRow where
  username : String
  info : List (String × String)
  lastActive : Nat
  taskCount : Int
  createdAt : Nat
deriving DecidableEq

/-- A row of the `backlog` table (`id` is the AUTOINCREMENT primary key). -/
structure BacklogRow where
  id : Nat
  username : String
  description : String
  priority : Int
  completed : Bool
  createdAt : Nat
deriving DecidableEq

/-- A row of the `preferences` table. -/
structure PrefRow where
  key : String
  value : String
  updatedAt : Nat
deriving DecidableEq

/-- The whole sqlite store.  `nextBacklogId` models the AUTOINCREMENT counter
of the `backlog` table: every id it has handed out so far is `< nextBacklogId`. -/
structure DB where
  viewers : List ViewerRow
  backlog : List BacklogRow
  prefs : List PrefRow
  nextBacklogId : Nat
deriving DecidableEq

/-- Models `HTTPException(status_code=404, detail=...)`. -/
inductive ApiError where
  | notFound : String → ApiError
deriving DecidableEq

/-- Boolean column value: sqlite stores `completed` as 0/1. -/
def completedNat (b : Bool) : Nat := if b then 1 else 0

/-- The comparison realizing `ORDER BY completed ASC, priority DESC,
created_at ASC` in `get_backlog` (`main.py` line 224). -/
def backlogLE (a b : BacklogRow) : Prop :=
  completedNat a.completed < completedNat b.completed ∨
    (completedNat a.completed = completedNat b.completed ∧
      (b.priority < a.priority ∨
        (a.priority = b.priority ∧ a.createdAt ≤ b.createdAt)))

instance : DecidableRel backlogLE := fun a b => by
  unfold backlogLE; infer_instance

instance : IsTotal BacklogRow backlogLE :=
  ⟨fun a b => by unfold backlogLE; omega⟩

instance : IsTrans BacklogRow backlogLE :=
  ⟨fun a b c h₁ h₂ => by unfold backlogLE at *; omega⟩

/-- Endpoint `GET /backlog/{username}` (`main.py` lines 216-238): the rows of the
`backlog` table whose `username` matches, in the three-key sort order. -/
def get_backlog (db : DB) (username : String) : List BacklogRow :=
  List.insertionSort backlogLE
    (db.backlog.filter (fun r => r.username == username))

/-- Endpoint `GET /viewers/{username}` (`main.py` lines 146-161): 404 when no row. -/
def get_viewer (db : DB) (username : String) : Except ApiError ViewerInfo :=
  match db.viewers.find? (fun r => r.username == username) with
  | some row => .ok ⟨row.username, row.info, row.taskCount⟩
  | none => .error (.notFound "Viewer not found")

/-- Endpoint `POST /viewers` (`main.py` lines 163-183): SQL
`INSERT ... ON CONFLICT(username) DO UPDATE SET info, last_active, task_count`.
The response is `return viewer`: the request body echoed, no reload. -/
def upsert_viewer (db : DB) (now : Nat) (viewer : ViewerInfo) :
    DB × ViewerInfo :=
  let viewers' :=
    if db.viewers.any (fun r => r.username == viewer.username) then
      db.viewers.map (fun r =>
        if r.username == viewer.username then
          { r with info := viewer.info, lastActive := now,
                   taskCount := viewer.task_count }
        else r)
    else
      db.viewers ++ [⟨viewer.username, viewer.info, now, viewer.task_count, now⟩]
  ({ db with viewers := viewers' }, viewer)

/-- Python `info[field] = value` on the deserialized dict: overwrite the key
in place when present, append it otherwise (dicts keep insertion order). -/
def setField : List (String × String) → String → String →
    List (String × String)
  | [], k, v => [(k, v)]
  | p :: rest, k, v =>
    if p.1 == k then (k, v) :: rest else p :: setField rest k v

/-- Endpoint `PUT /viewers/{username}/info` (`main.py` lines 185-213): read current
info (empty when no row), set the one field, then SQL
`INSERT (username, info, last_active) ... ON CONFLICT(username) DO UPDATE SET
info, last_active`; on insert `task_count` takes its column default 0.
Returns `{"success": True, "field": field, "value": value}`. -/
def set_viewer_info (db : DB) (now : Nat) (username field value : String) :
    DB × (String × String) :=
  let info0 :=
    match db.viewers.find? (fun r => r.username == username) with
    | some row => row.info
    | none => []
  let info := setField info0 field value
  let viewers' :=
    if db.viewers.any (fun r => r.username == username) then
      db.viewers.map (fun r =>
        if r.username == username then
          { r with info := info, lastActive := now }
        else r)
    else
      db.viewers ++ [⟨username, info, now, 0, now⟩]
  ({ db with viewers := viewers' }, (field, value))

/-- Endpoint `POST /backlog` (`main.py` lines 240-263): insert with generated id and
`created_at` default, then `SELECT * FROM backlog WHERE id = ?` — the
response is the reloaded row, not the request echoed. -/
def add_backlog_item (db : DB) (now : Nat) (item : BacklogItem) :
    DB × Option BacklogRow :=
  let item_id := db.nextBacklogId
  let row : BacklogRow :=
    ⟨item_id, item.username, item.description, item.priority, item.completed,
      now⟩
  let db' := { db with backlog := db.backlog ++ [row],
                       nextBacklogId := item_id + 1 }
  (db', db'.backlog.find? (fun r => r.id == item_id))

/-- Endpoint `PUT /backlog/{item_id}/complete` (`main.py` lines 265-279): SQL
`UPDATE backlog SET completed = NOT completed WHERE id = ?`; 404 when
`cursor.rowcount == 0`; on success returns `{"success": True, "id": item_id}`
— only the id, never the new state. -/
def toggle_backlog_complete (db : DB) (item_id : Nat) :
    DB × Except ApiError Nat :=
  let matched := db.backlog.countP (fun r => r.id == item_id)
  let db' := { db with backlog := db.backlog.map (fun r =>
    if r.id == item_id then { r with completed := !r.completed } else r) }
  (db', if matched = 0 then .error (.notFound "Item not found") else .ok item_id)

/-- Endpoint `DELETE /backlog/{item_id}` (`main.py` lines 281-292): SQL
`DELETE FROM backlog WHERE id = ?`; 404 when `cursor.rowcount == 0`. -/
def delete_backlog_item (db : DB) (item_id : Nat) :
    DB × Except ApiError Nat :=
  let matched := db.backlog.countP (fun r => r.id == item_id)
  let db' := { db with backlog := db.backlog.filter (fun r =>
    !(r.id == item_id)) }
  (db', if matched = 0 then .error (.notFound "Item not found") else .ok item_id)

/-- Endpoint `GET /preferences/{key}` (`main.py` lines 295-306): 404 when no row. -/
def get_preference (db : DB) (key : String) :
    Except ApiError (String × String) :=
  match db.prefs.find? (fun p => p.key == key) with
  | some row => .ok (key, row.value)
  | none => .error (.notFound "Preference not found")

/-- Python 3 `round(x, 1)` over exact rationals: round `10 * x` to the
nearest integer, ties to even (banker's rounding), then divide by 10. -/
def round1 (x : ℚ) : ℚ :=
  ((if 10 * x - ⌊10 * x⌋ = 1 / 2 then
      (if Even ⌊10 * x⌋ then ⌊10 * x⌋ else ⌊10 * x⌋ + 1)
    else round (10 * x) : ℤ) : ℚ) / 10

/-- The `completion_rate` field of `GET /stats/summary` (`main.py` line 368):
`round(completed_backlog / total_backlog * 100, 1) if total_backlog > 0
else 0`. -/
def completionRate (completed total : Nat) : ℚ :=
  if 0 < total then round1 ((completed : ℚ) / (total : ℚ) * 100) else 0

/-! ### Helper lemmas -/

theorem beq_false_of_ne {α : Type _} [BEq α] [LawfulBEq α] {a b : α}
    (h : a ≠ b) : (a == b) = false :=
  beq_eq_false_iff_ne.mpr h

theorem lookup_setField_self (info : List (String × String)) (k v : String) :
    (setField info k v).lookup k = some v := by
  induction info with
  | nil => simp [setField, List.lookup]
  | cons p rest ih =>
    by_cases h : p.1 = k
    · simp [setField, h, List.lookup]
    · have hk : k ≠ p.1 := fun hk => h hk.symm
      simp [setField, beq_false_of_ne h, List.lookup, beq_false_of_ne hk, ih]

theorem lookup_setField_other (info : List (String × String))
    (k v k' : String) (h : k' ≠ k) :
    (setField info k v).lookup k' = info.lookup k' := by
  induction info with
  | nil => simp [setField, List.lookup, beq_false_of_ne h]
  | cons p rest ih =>
    by_cases hp : p.1 = k
    · subst hp
      simp [setField, List.lookup, beq_false_of_ne h]
    · by_cases hq : k' = p.1
      · simp [setField, beq_false_of_ne hp, List.lookup, hq]
      · simp [setField, beq_false_of_ne hp, List.lookup,
          beq_false_of_ne hq, ih]

theorem find?_append_of_none {α : Type} {p : α → Bool} {l₁ l₂ : List α}
    (h : l₁.find? p = none) : (l₁ ++ l₂).find? p = l₂.find? p := by
  simp [List.find?_append, h]

theorem find?_username_eq {l : List ViewerRow} {u : String} {r : ViewerRow}
    (hnd : (l.map (fun x => x.username)).Nodup) (hr : r ∈ l)
    (hu : r.username = u) :
    l.find? (fun x => x.username == u) = some r := by
  induction l with
  | nil => cases hr
  | cons a rest ih =>
    rcases List.mem_cons.mp hr with rfl | htail
    · simp [List.find?, hu]
    · have hnd' := (List.nodup_cons.mp hnd).2
      have hmem : u ∈ rest.map (fun x => x.username) := by
        have := List.mem_map_of_mem (fun x => x.username) htail
        simpa [hu] using this
      have hau : a.username ≠ u := fun hc =>
        (List.nodup_cons.mp hnd).1 (by simpa [hc] using hmem)
      simp [List.find?, beq_false_of_ne hau, ih hnd' htail]

/-- The viewers table after a full upsert, by the two `ON CONFLICT` cases. -/
theorem upsert_viewer_viewers (db : DB) (now : Nat) (v : ViewerInfo) :
    (upsert_viewer db now v).1.viewers =
      if db.viewers.any (fun x => x.username == v.username) then
        db.viewers.map (fun r =>
          if r.username == v.username then
            { r with info := v.info, lastActive := now,
                     taskCount := v.task_count }
          else r)
      else db.viewers ++ [⟨v.username, v.info, now, v.task_count, now⟩] :=
  rfl

/-- The whole store component returned by the full upsert. -/
theorem upsert_fst (db : DB) (now : Nat) (v : ViewerInfo) :
    (upsert_viewer db now v).1 =
      { db with viewers :=
          if db.viewers.any (fun x => x.username == v.username) then
            db.viewers.map (fun r =>
              if r.username == v.username then
                { r with info := v.info, lastActive := now,
                         taskCount := v.task_count }
              else r)
          else
            db.viewers ++ [⟨v.username, v.info, now, v.task_count, now⟩] } :=
  rfl

/-- Every row matching the upserted username carries the new field values. -/
theorem upsert_fields (db : DB) (now : Nat) (v : ViewerInfo) :
    ∀ r ∈ (upsert_viewer db now v).1.viewers, r.username = v.username →
      r.info = v.info ∧ r.lastActive = now ∧ r.taskCount = v.task_count := by
  intro r hr hru
  rw [upsert_viewer_viewers] at hr
  by_cases h : db.viewers.any (fun x => x.username == v.username)
  · rw [if_pos h] at hr
    rcases List.mem_map.mp hr with ⟨s, hs, rfl⟩
    by_cases hm : s.username = v.username
    · simp [hm]
    · simp only [beq_false_of_ne hm, if_neg, Bool.false_eq_true,
        not_false_iff] at hru ⊢
      exact absurd hru hm
  · rw [if_neg h] at hr
    rcases List.mem_append.mp hr with hold | hnew
    · exact absurd (List.any_eq_true.mpr ⟨r, hold, by simp [hru]⟩) h
    · rcases List.mem_singleton.mp hnew with rfl
      exact ⟨rfl, rfl, rfl⟩

/-- After a full upsert a row with the upserted username always exists. -/
theorem upsert_exists_row (db : DB) (now : Nat) (v : ViewerInfo) :
    ∃ r ∈ (upsert_viewer db now v).1.viewers, r.username = v.username := by
  rw [upsert_viewer_viewers]
  by_cases h : db.viewers.any (fun x => x.username == v.username)
  · rw [if_pos h]
    rcases List.any_eq_true.mp h with ⟨s, hs, hsu⟩
    refine ⟨_, List.mem_map_of_mem _ hs, ?_⟩
    simp only [hsu, if_pos]
    exact beq_iff_eq.mp hsu
  · rw [if_neg h]
    exact ⟨_, List.mem_append_right _ (List.mem_singleton_self _), rfl⟩

/-- How a full upsert changes the number of rows carrying its username. -/
theorem countP_username_upsert (db : DB) (now : Nat) (v : ViewerInfo) :
    (upsert_viewer db now v).1.viewers.countP
        (fun r => r.username == v.username) =
      if db.viewers.countP (fun r => r.username == v.username) = 0 then 1
      else db.viewers.countP (fun r => r.username == v.username) := by
  rw [upsert_viewer_viewers]
  by_cases h : db.viewers.any (fun x => x.username == v.username)
  · rw [if_pos h]
    have hne : db.viewers.countP (fun r => r.username == v.username) ≠ 0 := by
      rcases List.any_eq_true.mp h with ⟨s, hs, hsu⟩
      rw [Ne, List.countP_eq_zero]
      exact fun hall => hall s hs hsu
    rw [List.countP_map, List.countP_congr, if_neg hne]
    intro r _
    by_cases hm : r.username = v.username <;>
      simp [Function.comp, hm, beq_false_of_ne]
  · rw [if_neg h, List.countP_append]
    have h0 : db.viewers.countP (fun r => r.username == v.username) = 0 :=
      List.countP_eq_zero.mpr
        (fun a ha hpa => h (List.any_eq_true.mpr ⟨a, ha, hpa⟩))
    simp [h0]

/-- With unique usernames (the `viewers` primary key) at most one row
matches any username. -/
theorem countP_username_le_one {l : List ViewerRow} {u : String}
    (hnd : (l.map (fun x => x.username)).Nodup) :
    l.countP (fun r => r.username == u) ≤ 1 := by
  induction l with
  | nil => simp
  | cons a rest ih =>
    have hnd' := (List.nodup_cons.mp hnd).2
    by_cases hm : a.username = u
    · have h0 : rest.countP (fun r => r.username == u) = 0 := by
        rw [List.countP_eq_zero]
        intro r hr hpr
        apply (List.nodup_cons.mp hnd).1
        have hru : r.username = u := by simpa using hpr
        have := List.mem_map_of_mem (fun x => x.username) hr
        simpa [hru, hm] using this
      rw [List.countP_cons, h0]
      simp [hm]
    · rw [List.countP_cons, beq_false_of_ne hm]
      simpa using ih hnd'

/-- The first store component returned by the toggle operation. -/
theorem toggle_fst (db : DB) (item_id : Nat) :
    (toggle_backlog_complete db item_id).1 =
      { db with backlog := db.backlog.map (fun r =>
          if r.id == item_id then { r with completed := !r.completed }
          else r) } :=
  rfl

/-- The response component returned by the toggle operation. -/
theorem toggle_snd (db : DB) (item_id : Nat) :
    (toggle_backlog_complete db item_id).2 =
      if db.backlog.countP (fun r => r.id == item_id) = 0 then
        .error (.notFound "Item not found")
      else .ok item_id :=
  rfl

/-- The first store component returned by the delete operation. -/
theorem delete_fst (db : DB) (item_id : Nat) :
    (delete_backlog_item db item_id).1 =
      { db with backlog := db.backlog.filter (fun r => !(r.id == item_id)) } :=
  rfl

/-- The response component returned by the delete operation. -/
theorem delete_snd (db : DB) (item_id : Nat) :
    (delete_backlog_item db item_id).2 =
      if db.backlog.countP (fun r => r.id == item_id) = 0 then
        .error (.notFound "Item not found")
      else .ok item_id :=
  rfl

/-- The store after the add operation. -/
theorem add_fst (db : DB) (now : Nat) (item : BacklogItem) :
    (add_backlog_item db now item).1 =
      { db with
          backlog := db.backlog ++
            [⟨db.nextBacklogId, item.username, item.description,
              item.priority, item.completed, now⟩],
          nextBacklogId := db.nextBacklogId + 1 } :=
  rfl

/-- The reloaded response of the add operation. -/
theorem add_snd (db : DB) (now : Nat) (item : BacklogItem) :
    (add_backlog_item db now item).2 =
      (db.backlog ++
        ([⟨db.nextBacklogId, item.username, item.description,
          item.priority, item.completed, now⟩] : List BacklogRow)).find?
        (fun r => r.id == db.nextBacklogId) :=
  rfl

/-- The viewers table after a single-field info set, when the username has a
row (`ON CONFLICT` update path, `task_count` untouched). -/
theorem set_viewer_info_viewers_found {db : DB} {u : String} {r : ViewerRow}
    (hf : db.viewers.find? (fun x => x.username == u) = some r)
    (now : Nat) (field value : String) :
    (set_viewer_info db now u field value).1.viewers =
      db.viewers.map (fun x =>
        if x.username == u then
          { x with info := setField r.info field value, lastActive := now }
        else x) := by
  have hp := List.find?_some (p := fun x : ViewerRow => x.username == u) hf
  have hany : db.viewers.any (fun x => x.username == u) = true :=
    List.any_eq_true.mpr ⟨r, List.mem_of_find?_eq_some hf, hp⟩
  unfold set_viewer_info
  rw [hf]
  simp [hany]

/-- The viewers table after a single-field info set, when the username has no
row (insert path: `task_count` takes its column default 0). -/
theorem set_viewer_info_viewers_none {db : DB} {u : String}
    (hf : db.viewers.find? (fun x => x.username == u) = none)
    (now : Nat) (field value : String) :
    (set_viewer_info db now u field value).1.viewers =
      db.viewers ++ [⟨u, [(field, value)], now, 0, now⟩] := by
  have hany : db.viewers.any (fun x => x.username == u) = false :=
    List.any_eq_false.mpr (List.find?_eq_none.mp hf)
  simp [set_viewer_info, hf, hany, setField]

/-- Banker's rounding to one decimal moves a rational by at most `1/20`. -/
theorem abs_round1_sub (x : ℚ) : |round1 x - x| ≤ 1 / 20 := by
  unfold round1
  by_cases h : 10 * x - (⌊10 * x⌋ : ℚ) = 1 / 2
  · rw [if_pos h]
    by_cases he : Even ⌊10 * x⌋
    · rw [if_pos he]
      have hd : ((⌊10 * x⌋ : ℤ) : ℚ) / 10 - x =
          ((⌊10 * x⌋ : ℚ) - 10 * x) / 10 := by ring
      rw [hd, abs_div]
      rw [abs_sub_comm, h, abs_of_nonneg (by norm_num : (0 : ℚ) ≤ 1 / 2)]
      norm_num
    · rw [if_neg he]
      have hd : ((⌊10 * x⌋ + 1 : ℤ) : ℚ) / 10 - x =
          (1 - (10 * x - (⌊10 * x⌋ : ℚ))) / 10 := by push_cast; ring
      rw [hd, h, abs_div]
      rw [show |(1 : ℚ) - 1 / 2| = 1 / 2 by rw [abs_of_nonneg] <;> norm_num]
      norm_num
  · rw [if_neg h]
    have hb : |(round (10 * x) : ℚ) - 10 * x| ≤ 1 / 2 := by
      rw [abs_sub_comm]; exact abs_sub_round (10 * x)
    have hd : ((round (10 * x) : ℤ) : ℚ) / 10 - x =
        ((round (10 * x) : ℚ) - 10 * x) / 10 := by ring
    rw [hd, abs_div]
    have h10 : |(10 : ℚ)| = 10 := by norm_num
    rw [h10]
    linarith

/-! ### Claim theorems -/

/-- C1: for every username, listing the backlog returns exactly the stored
rows with that username (a permutation of the filtered table), sorted by
completed ascending, then priority descending, then creation time ascending
(`backlogLE`); in particular items `(false,5,t1)`, `(true,1,t2)`,
`(false,3,t3)` come back exactly as
`[(false,5,t1), (false,3,t3), (true,1,t2)]`. -/
theorem get_backlog_three_key_sort (db : DB) (u : String) :
    (get_backlog db u).Perm
        (db.backlog.filter (fun r => r.username == u)) ∧
    (get_backlog db u).Sorted backlogLE ∧
    get_backlog
        ⟨[], [⟨1, "alice", "a", 5, false, 1⟩, ⟨2, "alice", "b", 1, true, 2⟩,
              ⟨3, "alice", "c", 3, false, 3⟩], [], 4⟩ "alice" =
      [⟨1, "alice", "a", 5, false, 1⟩, ⟨3, "alice", "c", 3, false, 3⟩,
       ⟨2, "alice", "b", 1, true, 2⟩] :=
  ⟨List.perm_insertionSort backlogLE _,
   List.sorted_insertionSort backlogLE _, by decide⟩

/-- C10: listing the backlog of a username with no backlog rows — in
particular one with no viewer row at all — returns the empty list and never
fails with NotFound (the operation does not consult the viewers table and
returns no error at all). -/
theorem get_backlog_no_rows_empty (db : DB) (u : String)
    (h : ∀ r ∈ db.backlog, r.username ≠ u) : get_backlog db u = [] := by
  unfold get_backlog
  rw [List.filter_eq_nil_iff.mpr
    (fun r hr => by simp [beq_false_of_ne (h r hr)])]
  rfl

/-- Witness for C10: a store with a backlog row for "bob" and no viewer rows
at all yields the empty list for "alice". -/
theorem get_backlog_no_rows_empty_witness :
    get_backlog ⟨[], [⟨1, "bob", "x", 3, false, 1⟩], [], 2⟩ "alice" = [] :=
  get_backlog_no_rows_empty ⟨[], [⟨1, "bob", "x", 3, false, 1⟩], [], 2⟩
    "alice" (by decide)

/-- C9: the full viewer upsert's response is exactly the request body echoed
back, independent of the prior store state and of the timestamp — it is
never reloaded from storage. -/
theorem upsert_viewer_echoes_request (db₁ db₂ : DB) (now₁ now₂ : Nat)
    (v : ViewerInfo) :
    (upsert_viewer db₁ now₁ v).2 = v ∧
    (upsert_viewer db₁ now₁ v).2 = (upsert_viewer db₂ now₂ v).2 :=
  ⟨rfl, rfl⟩

/-- C5: the completion rate is `completed / total * 100` rounded to one
decimal place (so it sits within `1/20` of the exact ratio), equals `0`
when the total is `0`, and equals `37.5` for 3 completed out of 8. -/
theorem completion_rate_formula (c t : Nat) (h : 0 < t) :
    completionRate c 0 = 0 ∧
    completionRate 3 8 = 75 / 2 ∧
    completionRate c t = round1 ((c : ℚ) / (t : ℚ) * 100) ∧
    |completionRate c t - (c : ℚ) / (t : ℚ) * 100| ≤ 1 / 20 := by
  refine ⟨by simp [completionRate], by norm_num [completionRate, round1],
    by simp [completionRate, h], ?_⟩
  rw [completionRate, if_pos h]
  exact abs_round1_sub _

/-- Witness for C5 at `completed = 3`, `total = 8`. -/
theorem completion_rate_formula_witness :
    0 < 8 ∧ completionRate 3 8 = 75 / 2 :=
  ⟨by decide, (completion_rate_formula 3 8 (by decide)).2.1⟩

/-- C6: toggling an existing backlog item's completion twice restores the
store's backlog table exactly; a single toggle flips the flag of the matching
row in place, and the response is only the echoed id (`.ok item_id`), never
the new state. -/
theorem toggle_complete_involution (db : DB) (item_id : Nat)
    (h : ∃ r ∈ db.backlog, r.id = item_id) :
    (toggle_backlog_complete
        (toggle_backlog_complete db item_id).1 item_id).1 = db ∧
    (toggle_backlog_complete db item_id).2 = .ok item_id ∧
    ∀ r ∈ db.backlog, r.id = item_id →
      { r with completed := !r.completed }
        ∈ (toggle_backlog_complete db item_id).1.backlog := by
  refine ⟨?_, ?_, ?_⟩
  · obtain ⟨vs, bl, ps, n⟩ := db
    rw [toggle_fst, toggle_fst]
    simp only
    congr 1
    rw [List.map_map]
    rw [List.map_congr_left (g := id), List.map_id]
    intro r _
    obtain ⟨rid, run, rde, rpr, rco, rcr⟩ := r
    by_cases hm : rid = item_id
    · simp [hm, Bool.not_not]
    · simp [hm]
  · have hne : ¬db.backlog.countP (fun r => r.id == item_id) = 0 := by
      rw [List.countP_eq_zero]
      intro hall
      rcases h with ⟨r, hr, hid⟩
      exact hall r hr (by simp [hid])
    rw [toggle_snd, if_neg hne]
  · intro r hr hid
    rw [toggle_fst]
    have hfr : (if r.id == item_id then
        { r with completed := !r.completed } else r) =
        { r with completed := !r.completed } := by simp [hid]
    rw [← hfr]
    exact List.mem_map_of_mem _ hr

/-- C7: the full viewer upsert is idempotent for identical inputs (a second
call with the same username, info and task count leaves the store state
unchanged), a matching row always exists afterwards (absence is treated as
create, never an error), and every matching row's last-active timestamp is
the current time. -/
theorem upsert_viewer_idempotent (db : DB) (now : Nat) (v : ViewerInfo) :
    (upsert_viewer (upsert_viewer db now v).1 now v).1 =
      (upsert_viewer db now v).1 ∧
    (∃ r ∈ (upsert_viewer db now v).1.viewers, r.username = v.username) ∧
    (∀ r ∈ (upsert_viewer db now v).1.viewers, r.username = v.username →
      r.lastActive = now) := by
  refine ⟨?_, upsert_exists_row db now v,
    fun r hr hm => (upsert_fields db now v r hr hm).2.1⟩
  have hany : (upsert_viewer db now v).1.viewers.any
      (fun x => x.username == v.username) = true := by
    rcases upsert_exists_row db now v with ⟨r, hr, hru⟩
    exact List.any_eq_true.mpr ⟨r, hr, by simp [hru]⟩
  rw [upsert_fst (upsert_viewer db now v).1 now v, if_pos hany]
  have hmapeq : (upsert_viewer db now v).1.viewers.map (fun r =>
      if r.username == v.username then
        { r with info := v.info, lastActive := now,
                 taskCount := v.task_count }
      else r) = (upsert_viewer db now v).1.viewers := by
    rw [List.map_congr_left (g := id), List.map_id]
    intro r hr
    by_cases hm : r.username = v.username
    · obtain ⟨hi, hl, ht⟩ := upsert_fields db now v r hr hm
      have hb : (r.username == v.username) = true := by simp [hm]
      simp only [hb, if_true, id_eq]
      rw [← hi, ← hl, ← ht]
    · simp [beq_false_of_ne hm]
  rw [hmapeq]

/-- C3: from any store with unique usernames, upserting two viewer records
with the same username leaves exactly one row carrying that username, and
that row holds the second call's info map and task count in full (the whole
info map is replaced, not merged). -/
theorem upsert_twice_single_row (db : DB) (now₁ now₂ : Nat)
    (v₁ v₂ : ViewerInfo)
    (hnd : (db.viewers.map (fun x => x.username)).Nodup)
    (huser : v₁.username = v₂.username) :
    ((upsert_viewer (upsert_viewer db now₁ v₁).1 now₂ v₂).1.viewers.countP
        (fun r => r.username == v₂.username)) = 1 ∧
    ∀ r ∈ (upsert_viewer (upsert_viewer db now₁ v₁).1 now₂ v₂).1.viewers,
      r.username = v₂.username →
        r.info = v₂.info ∧ r.taskCount = v₂.task_count := by
  refine ⟨?_, fun r hr hm =>
    ⟨(upsert_fields _ now₂ v₂ r hr hm).1,
     (upsert_fields _ now₂ v₂ r hr hm).2.2⟩⟩
  have hle : db.viewers.countP (fun r => r.username == v₂.username) ≤ 1 :=
    countP_username_le_one hnd
  have h1 := countP_username_upsert db now₁ v₁
  rw [huser] at h1
  have h2 := countP_username_upsert (upsert_viewer db now₁ v₁).1 now₂ v₂
  rw [h2, h1]
  split_ifs <;> omega

/-- Witness for C3: upserting "bob" twice over a one-row store keeps one
"bob" row holding the second info map and task count. -/
theorem upsert_twice_single_row_witness :
    ((upsert_viewer (upsert_viewer ⟨[⟨"bob", [], 1, 0, 1⟩], [], [], 1⟩ 2
        ⟨"bob", [("a", "1")], 4⟩).1 3 ⟨"bob", [("b", "2")], 7⟩).1.viewers.countP
      (fun r => r.username == "bob")) = 1 :=
  (upsert_twice_single_row ⟨[⟨"bob", [], 1, 0, 1⟩], [], [], 1⟩ 2 3
    ⟨"bob", [("a", "1")], 4⟩ ⟨"bob", [("b", "2")], 7⟩
    (by decide) (by decide)).1

/-- C8: the add-backlog response is the record reloaded from storage after
the insert: it carries the id the store generated (`nextBacklogId`) and the
persisted creation timestamp, and a row with exactly those values is in the
store afterwards. -/
theorem add_backlog_returns_persisted (db : DB) (now : Nat)
    (item : BacklogItem)
    (hfresh : ∀ r ∈ db.backlog, r.id < db.nextBacklogId) :
    (add_backlog_item db now item).2 =
      some ⟨db.nextBacklogId, item.username, item.description, item.priority,
            item.completed, now⟩ ∧
    (⟨db.nextBacklogId, item.username, item.description, item.priority,
        item.completed, now⟩ : BacklogRow) ∈
      (add_backlog_item db now item).1.backlog ∧
    (add_backlog_item db now item).1.nextBacklogId = db.nextBacklogId + 1 := by
  refine ⟨?_, ?_, rfl⟩
  · rw [add_snd, find?_append_of_none]
    · simp [List.find?]
    · rw [List.find?_eq_none]
      intro r hr
      simp [Nat.ne_of_lt (hfresh r hr)]
  · rw [add_fst]
    exact List.mem_append_right _ (List.mem_singleton_self _)

/-- Witness for C8: adding to a store whose next id is 2 returns the
materialized row with id 2 and the persisted timestamp. -/
theorem add_backlog_returns_persisted_witness :
    (add_backlog_item ⟨[], [⟨1, "bob", "x", 3, false, 1⟩], [], 2⟩ 7
        ⟨"bob", "y", 2, false⟩).2 = some ⟨2, "bob", "y", 2, false, 7⟩ :=
  (add_backlog_returns_persisted ⟨[], [⟨1, "bob", "x", 3, false, 1⟩], [], 2⟩
    7 ⟨"bob", "y", 2, false⟩ (by decide)).1

/-- C4: lookups and keyed mutations fail with NotFound exactly when the key
is absent, and the failing mutations leave the store unchanged: an unknown
viewer username or preference key yields a NotFound error (never a default
object), toggling or deleting an unmatched backlog id yields NotFound with
the store intact, and every one of these operations succeeds (no NotFound)
when the key exists. -/
theorem missing_key_not_found (db : DB) (u k : String) (item_id : Nat) :
    ((∀ r ∈ db.viewers, r.username ≠ u) →
      get_viewer db u = .error (.notFound "Viewer not found")) ∧
    ((∃ r ∈ db.viewers, r.username = u) →
      ∀ e, get_viewer db u ≠ .error e) ∧
    ((∀ p ∈ db.prefs, p.key ≠ k) →
      get_preference db k = .error (.notFound "Preference not found")) ∧
    ((∃ p ∈ db.prefs, p.key = k) →
      ∀ e, get_preference db k ≠ .error e) ∧
    ((∀ r ∈ db.backlog, r.id ≠ item_id) →
      (toggle_backlog_complete db item_id).2 =
          .error (.notFound "Item not found") ∧
      (toggle_backlog_complete db item_id).1 = db ∧
      (delete_backlog_item db item_id).2 =
          .error (.notFound "Item not found") ∧
      (delete_backlog_item db item_id).1 = db) ∧
    ((∃ r ∈ db.backlog, r.id = item_id) →
      (toggle_backlog_complete db item_id).2 = .ok item_id ∧
      (delete_backlog_item db item_id).2 = .ok item_id) := by
  refine ⟨?_, ?_, ?_, ?_, ?_, ?_⟩
  · intro h
    have hf : db.viewers.find? (fun x => x.username == u) = none :=
      List.find?_eq_none.mpr (fun x hx => by simp [h x hx])
    simp [get_viewer, hf]
  · rintro ⟨r, hr, hru⟩ e
    have hs : (db.viewers.find? (fun x => x.username == u)).isSome :=
      List.find?_isSome.mpr ⟨r, hr, by simp [hru]⟩
    obtain ⟨s, hsome⟩ := Option.isSome_iff_exists.mp hs
    simp [get_viewer, hsome]
  · intro h
    have hf : db.prefs.find? (fun p => p.key == k) = none :=
      List.find?_eq_none.mpr (fun x hx => by simp [h x hx])
    simp [get_preference, hf]
  · rintro ⟨p, hp, hpk⟩ e
    have hs : (db.prefs.find? (fun x => x.key == k)).isSome :=
      List.find?_isSome.mpr ⟨p, hp, by simp [hpk]⟩
    obtain ⟨s, hsome⟩ := Option.isSome_iff_exists.mp hs
    simp [get_preference, hsome]
  · intro h
    have h0 : db.backlog.countP (fun r => r.id == item_id) = 0 :=
      List.countP_eq_zero.mpr (fun r hr => by simp [h r hr])
    refine ⟨by rw [toggle_snd, if_pos h0], ?_,
      by rw [delete_snd, if_pos h0], ?_⟩
    · rw [toggle_fst]
      have hmap : db.backlog.map (fun r =>
          if r.id == item_id then { r with completed := !r.completed }
          else r) = db.backlog := by
        rw [List.map_congr_left (g := id), List.map_id]
        intro r hr
        simp [beq_false_of_ne (h r hr)]
      rw [hmap]
    · rw [delete_fst]
      have hfil : db.backlog.filter (fun r => !(r.id == item_id)) =
          db.backlog :=
        List.filter_eq_self.mpr
          (fun r hr => by simp [beq_false_of_ne (h r hr)])
      rw [hfil]
  · rintro ⟨r, hr, hid⟩
    have hne : ¬db.backlog.countP (fun x => x.id == item_id) = 0 := by
      rw [List.countP_eq_zero]
      intro hall
      exact hall r hr (by simp [hid])
    exact ⟨by rw [toggle_snd, if_neg hne], by rw [delete_snd, if_neg hne]⟩

/-- Witness for C4: in a concrete store, the unknown username "alice",
preference key "color" and backlog id 9 all yield NotFound, while the
existing id 1 toggles without error. -/
theorem missing_key_not_found_witness :
    get_viewer ⟨[⟨"bob", [], 5, 0, 5⟩], [⟨1, "bob", "x", 3, false, 1⟩],
        [⟨"theme", "dark", 1⟩], 2⟩ "alice" =
      .error (.notFound "Viewer not found") ∧
    get_preference ⟨[⟨"bob", [], 5, 0, 5⟩], [⟨1, "bob", "x", 3, false, 1⟩],
        [⟨"theme", "dark", 1⟩], 2⟩ "color" =
      .error (.notFound "Preference not found") ∧
    (toggle_backlog_complete ⟨[⟨"bob", [], 5, 0, 5⟩],
        [⟨1, "bob", "x", 3, false, 1⟩], [⟨"theme", "dark", 1⟩], 2⟩ 9).2 =
      .error (.notFound "Item not found") ∧
    (toggle_backlog_complete ⟨[⟨"bob", [], 5, 0, 5⟩],
        [⟨1, "bob", "x", 3, false, 1⟩], [⟨"theme", "dark", 1⟩], 2⟩ 1).2 =
      .ok 1 := by
  have h₉ := missing_key_not_found ⟨[⟨"bob", [], 5, 0, 5⟩],
    [⟨1, "bob", "x", 3, false, 1⟩], [⟨"theme", "dark", 1⟩], 2⟩
    "alice" "color" 9
  have h₁ := missing_key_not_found ⟨[⟨"bob", [], 5, 0, 5⟩],
    [⟨1, "bob", "x", 3, false, 1⟩], [⟨"theme", "dark", 1⟩], 2⟩
    "alice" "color" 1
  exact ⟨h₉.1 (by decide), h₉.2.2.1 (by decide),
    (h₉.2.2.2.2.1 (by decide)).1, (h₁.2.2.2.2.2 (by decide)).1⟩

/-- C2: the single-field info set adds or overwrites exactly the one key in
the viewer's info map, preserves every other info key, refreshes the
last-active timestamp and leaves the task count untouched; on a username
with no row it creates the viewer with only that field, and repeating with a
different field yields a viewer whose info holds both fields. -/
theorem set_viewer_info_frame (db : DB) (now : Nat) (u field value : String)
    (hnd : (db.viewers.map (fun x => x.username)).Nodup) :
    (∀ r ∈ db.viewers, r.username = u →
      ∃ r' ∈ (set_viewer_info db now u field value).1.viewers,
        r'.username = u ∧
        r'.info.lookup field = some value ∧
        (∀ j, j ≠ field → r'.info.lookup j = r.info.lookup j) ∧
        r'.lastActive = now ∧ r'.taskCount = r.taskCount) ∧
    ((∀ r ∈ db.viewers, r.username ≠ u) →
      (∃ r' ∈ (set_viewer_info db now u field value).1.viewers,
        r'.username = u ∧ r'.info = [(field, value)]) ∧
      ∀ now₂ field₂ value₂, field₂ ≠ field →
        ∃ r'' ∈ (set_viewer_info (set_viewer_info db now u field value).1
            now₂ u field₂ value₂).1.viewers,
          r''.username = u ∧ r''.info.lookup field = some value ∧
          r''.info.lookup field₂ = some value₂) := by
  constructor
  · intro r hr hru
    have hf := find?_username_eq hnd hr hru
    refine ⟨⟨r.username, setField r.info field value, now, r.taskCount,
      r.createdAt⟩, ?_, hru, ?_, ?_, rfl, rfl⟩
    · rw [set_viewer_info_viewers_found hf]
      have := List.mem_map_of_mem (fun x : ViewerRow =>
        if x.username == u then
          { x with info := setField r.info field value, lastActive := now }
        else x) hr
      simpa [hru] using this
    · exact lookup_setField_self r.info field value
    · exact fun j hj => lookup_setField_other r.info field value j hj
  · intro h
    have hf : db.viewers.find? (fun x => x.username == u) = none :=
      List.find?_eq_none.mpr (fun x hx => by simp [h x hx])
    have hviewers := set_viewer_info_viewers_none hf now field value
    constructor
    · refine ⟨⟨u, [(field, value)], now, 0, now⟩, ?_, rfl, rfl⟩
      rw [hviewers]
      exact List.mem_append_right _ (List.mem_singleton_self _)
    · intro now₂ field₂ value₂ hne
      have hf₂ : (set_viewer_info db now u field value).1.viewers.find?
          (fun x => x.username == u) =
            some ⟨u, [(field, value)], now, 0, now⟩ := by
        rw [hviewers, find?_append_of_none hf]
        simp [List.find?]
      have hsf : setField [(field, value)] field₂ value₂ =
          [(field, value), (field₂, value₂)] := by
        have : field ≠ field₂ := fun hh => hne hh.symm
        simp [setField, beq_false_of_ne this]
      have hv₂ := set_viewer_info_viewers_found hf₂ now₂ field₂ value₂
      refine ⟨⟨u, [(field, value), (field₂, value₂)], now₂, 0, now⟩,
        ?_, rfl, ?_, ?_⟩
      · rw [hv₂, hviewers]
        simp [hsf]
      · simp [List.lookup]
      · simp [List.lookup, beq_false_of_ne hne]

/-- Witness for C2: setting "color" then "mood" on the fresh username
"alice" yields a viewer whose info holds both fields. -/
theorem set_viewer_info_frame_witness :
    ∃ r ∈ (set_viewer_info
        (set_viewer_info ⟨[], [], [], 1⟩ 5 "alice" "color" "red").1
        6 "alice" "mood" "happy").1.viewers,
      r.username = "alice" ∧ r.info.lookup "color" = some "red" ∧
      r.info.lookup "mood" = some "happy" :=
  ((set_viewer_info_frame ⟨[], [], [], 1⟩ 5 "alice" "color" "red"
    (by decide)).2 (by decide)).2 6 "mood" "happy" (by decide)

/-- Witness for C6: toggling item 1 twice restores the one-row store. -/
theorem toggle_complete_involution_witness :
    (toggle_backlog_complete
        (toggle_backlog_complete
          ⟨[], [⟨1, "bob", "x", 3, false, 1⟩], [], 2⟩ 1).1 1).1 =
      ⟨[], [⟨1, "bob", "x", 3, false, 1⟩], [], 2⟩ :=
  (toggle_complete_involution ⟨[], [⟨1, "bob", "x", 3, false, 1⟩], [], 2⟩ 1
    (by decide)).1

/-- Witness for C7: upserting "bob" twice with the same payload and
timestamp leaves the store of the first call unchanged. -/
theorem upsert_viewer_idempotent_witness :
    (upsert_viewer
        (upsert_viewer ⟨[], [], [], 1⟩ 4 ⟨"bob", [("a", "1")], 2⟩).1 4
        ⟨"bob", [("a", "1")], 2⟩).1 =
      (upsert_viewer ⟨[], [], [], 1⟩ 4 ⟨"bob", [("a", "1")], 2⟩).1 :=
  (upsert_viewer_idempotent ⟨[], [], [], 1⟩ 4 ⟨"bob", [("a", "1")], 2⟩).1

end TaskOverlay
